import Mathlib

/-!
Shallow embedding of the AkkuChat server (src/server.js): the connection
registry `activeUsers`, Socket.IO room membership, and all socket event
handlers.  Socket ids and room names are strings, as in the source.
A socket is implicitly a member of the room named by its own id (Socket.IO
semantics for `socket.to(socketId)`), and `socket.join` only ever adds a
room — the server never calls `socket.leave`, so a re-join into another
room keeps the old membership.  Timestamps (`new Date().toLocaleTimeString()`)
are passed in as an opaque `now` string.
-/

namespace AkkuChat

abbrev SocketId := String

/-- One registry entry: `activeUsers[socketId] = { username, roomId }`. -/
structure Session where
  username : String
  roomId : String
deriving DecidableEq

/-- JS `String.prototype.trim()`: strip leading and trailing whitespace. -/
def jsTrim (s : String) : String :=
  ⟨((s.data.dropWhile Char.isWhitespace).reverse.dropWhile Char.isWhitespace).reverse⟩

/-- JS object property read `activeUsers[sid]`. -/
def lookupUser : List (SocketId × Session) → SocketId → Option Session
  | [], _ => none
  | (k, v) :: rest, sid => if k = sid then some v else lookupUser rest sid

/-- JS assignment `activeUsers[sid] = s`: overwrite in place, else append
(JS objects keep the original insertion position on overwrite). -/
def setUser : List (SocketId × Session) → SocketId → Session → List (SocketId × Session)
  | [], sid, s => [(sid, s)]
  | (k, v) :: rest, sid, s =>
      if k = sid then (k, s) :: rest else (k, v) :: setUser rest sid s

/-- JS `delete activeUsers[sid]`. -/
def removeUser : List (SocketId × Session) → SocketId → List (SocketId × Session)
  | [], _ => []
  | (k, v) :: rest, sid =>
      if k = sid then removeUser rest sid else (k, v) :: removeUser rest sid

/-- `socket.join(roomId)`: membership only ever grows. -/
def joinSock (l : List (SocketId × String)) (sid : SocketId) (room : String) :
    List (SocketId × String) :=
  if (sid, room) ∈ l then l else l ++ [(sid, room)]

/-- Full server state: connected sockets (in connection order), Socket.IO room
memberships created by `socket.join`, and the `activeUsers` registry. -/
structure ServerState where
  connected : List SocketId
  socketRooms : List (SocketId × String)
  activeUsers : List (SocketId × Session)
deriving DecidableEq

/-- Sockets that receive `io.to(room).emit(...)`: every connected socket whose
Socket.IO membership includes `room` (its own id counts as a room). -/
def roomRecipients (st : ServerState) (room : String) : List SocketId :=
  st.connected.filter (fun sid => decide (sid = room ∨ (sid, room) ∈ st.socketRooms))

/-- Sockets that receive `socket.to(room).emit(...)` sent by `sender`
(same as `io.to` but excluding the sender). -/
def socketToRecipients (st : ServerState) (room : String) (sender : SocketId) :
    List SocketId :=
  (roomRecipients st room).filter (fun c => decide (c ≠ sender))

/-- The `roomUsers` list built on join and on disconnect (server.js lines
110-118 and 325-333): all registry entries of the room, in registry order. -/
def roomUsersOf (users : List (SocketId × Session)) (roomId : String) :
    List (SocketId × String) :=
  (users.filter (fun p => decide (p.2.roomId = roomId))).map
    (fun p => (p.1, p.2.username))

/-- The `roomUsers` list built by `get-room-users` (server.js lines 188-196):
same-room entries excluding the requesting socket itself. -/
def roomUsersExcept (users : List (SocketId × Session)) (roomId : String)
    (sid : SocketId) : List (SocketId × String) :=
  (users.filter (fun p => decide (p.2.roomId = roomId ∧ p.1 ≠ sid))).map
    (fun p => (p.1, p.2.username))

/-- Server-to-client payloads, one constructor per emitted event shape. -/
inductive Payload where
  | joinedRoom (username roomId : String)
  | joinError (message : String)
  | userJoined (username message : String)
  | userLeft (username message : String)
  | roomUsersList (users : List (SocketId × String))
  | receiveMessage (username message timestamp : String)
  | receiveImage (username imageUrl timestamp : String)
  | errorMsg (message : String)
  | callError (message : String)
  | incomingCall (callerSocketId : SocketId) (callerUsername callType : String)
  | callAccepted (answererSocketId : SocketId) (answererUsername : String)
  | callRejected (answererSocketId : SocketId) (answererUsername : String)
  | callEnded (fromSocketId : SocketId) (fromUsername : String)
  | webrtcOffer (fromSocketId : SocketId) (offer : String)
  | webrtcAnswer (fromSocketId : SocketId) (answer : String)
  | webrtcIceCandidate (fromSocketId : SocketId) (candidate : String)
deriving DecidableEq

/-- One outbound emission: who receives it, the event name, the payload.
Recipients are resolved at emission time from the current state. -/
structure Emit where
  recipients : List SocketId
  event : String
  payload : Payload
deriving DecidableEq

/-- Client-to-server events handled by `io.on('connection')`, plus the
transport-level disconnect. -/
inductive ClientEvent where
  | joinRoom (username roomId : String)
  | sendMessage (message : String)
  | sendImage (imageUrl : String)
  | getRoomUsers
  | callUser (targetSocketId : SocketId) (callType : String)
  | acceptCall (callerSocketId : SocketId)
  | rejectCall (callerSocketId : SocketId)
  | endCall (targetSocketId : SocketId)
  | webrtcOffer (targetSocketId : SocketId) (offer : String)
  | webrtcAnswer (targetSocketId : SocketId) (answer : String)
  | webrtcIceCandidate (targetSocketId : SocketId) (candidate : String)
  | disconnect
deriving DecidableEq

/-- A new transport connection: the socket becomes live (and is thereby a
member of the room named by its own id). -/
def connect (st : ServerState) (sid : SocketId) : ServerState :=
  ⟨st.connected ++ [sid], st.socketRooms, st.activeUsers⟩

/-- The event dispatch of server.js lines 81-341, one branch per
`socket.on(...)` handler, translated clause by clause. -/
def handle (st : ServerState) (sid : SocketId) (now : String) :
    ClientEvent → ServerState × List Emit
  | .joinRoom username roomId =>
      if username = "" ∨ roomId = "" then
        (st, [⟨[sid], "join-error", .joinError "Username and Room ID are required!"⟩])
      else
        let users := setUser st.activeUsers sid ⟨username, roomId⟩
        let st1 : ServerState :=
          ⟨st.connected, joinSock st.socketRooms sid roomId, users⟩
        (st1,
          [⟨[sid], "joined-room", .joinedRoom username roomId⟩,
           ⟨socketToRecipients st1 roomId sid, "user-joined",
              .userJoined username (username ++ " joined the room")⟩,
           ⟨roomRecipients st1 roomId, "room-users-list",
              .roomUsersList (roomUsersOf users roomId)⟩])
  | .sendMessage message =>
      match lookupUser st.activeUsers sid with
      | none => (st, [⟨[sid], "error", .errorMsg "You must join a room first!"⟩])
      | some u =>
          if jsTrim message = "" then (st, [])
          else
            (st, [⟨roomRecipients st u.roomId, "receive-message",
                    .receiveMessage u.username (jsTrim message) now⟩])
  | .sendImage imageUrl =>
      match lookupUser st.activeUsers sid with
      | none => (st, [⟨[sid], "error", .errorMsg "You must join a room first!"⟩])
      | some u =>
          if imageUrl = "" then (st, [])
          else
            (st, [⟨roomRecipients st u.roomId, "receive-image",
                    .receiveImage u.username imageUrl now⟩])
  | .getRoomUsers =>
      match lookupUser st.activeUsers sid with
      | none => (st, [])
      | some u =>
          (st, [⟨[sid], "room-users-list",
                  .roomUsersList (roomUsersExcept st.activeUsers u.roomId sid)⟩])
  | .callUser targetSocketId callType =>
      match lookupUser st.activeUsers sid with
      | none => (st, [])
      | some caller =>
          match lookupUser st.activeUsers targetSocketId with
          | none => (st, [⟨[sid], "call-error", .callError "User not found in room"⟩])
          | some target =>
              if target.roomId = caller.roomId then
                (st, [⟨socketToRecipients st targetSocketId sid, "incoming-call",
                        .incomingCall sid caller.username callType⟩])
              else
                (st, [⟨[sid], "call-error", .callError "User not found in room"⟩])
  | .acceptCall callerSocketId =>
      match lookupUser st.activeUsers sid, lookupUser st.activeUsers callerSocketId with
      | some user, some _ =>
          (st, [⟨socketToRecipients st callerSocketId sid, "call-accepted",
                  .callAccepted sid user.username⟩])
      | _, _ => (st, [])
  | .rejectCall callerSocketId =>
      match lookupUser st.activeUsers sid, lookupUser st.activeUsers callerSocketId with
      | some user, some _ =>
          (st, [⟨socketToRecipients st callerSocketId sid, "call-rejected",
                  .callRejected sid user.username⟩])
      | _, _ => (st, [])
  | .endCall targetSocketId =>
      match lookupUser st.activeUsers sid with
      | none => (st, [])
      | some user =>
          (st, [⟨socketToRecipients st targetSocketId sid, "call-ended",
                  .callEnded sid user.username⟩])
  | .webrtcOffer targetSocketId offer =>
      (st, [⟨socketToRecipients st targetSocketId sid, "webrtc-offer",
              .webrtcOffer sid offer⟩])
  | .webrtcAnswer targetSocketId answer =>
      (st, [⟨socketToRecipients st targetSocketId sid, "webrtc-answer",
              .webrtcAnswer sid answer⟩])
  | .webrtcIceCandidate targetSocketId candidate =>
      (st, [⟨socketToRecipients st targetSocketId sid, "webrtc-ice-candidate",
              .webrtcIceCandidate sid candidate⟩])
  | .disconnect =>
      let stD : ServerState :=
        ⟨st.connected.filter (fun c => decide (c ≠ sid)),
         st.socketRooms.filter (fun p => decide (p.1 ≠ sid)),
         st.activeUsers⟩
      match lookupUser st.activeUsers sid with
      | none => (stD, [])
      | some user =>
          let users := removeUser st.activeUsers sid
          let stF : ServerState := ⟨stD.connected, stD.socketRooms, users⟩
          (stF,
            [⟨socketToRecipients stD user.roomId sid, "user-left",
                .userLeft user.username (user.username ++ " left the room")⟩,
             ⟨roomRecipients stF user.roomId, "room-users-list",
                .roomUsersList (roomUsersOf users user.roomId)⟩])

/-- Run a list of (socket, event) steps, threading the state. -/
def runEvents (st : ServerState) (now : String) :
    List (SocketId × ClientEvent) → ServerState
  | [] => st
  | (sid, ev) :: rest => runEvents (handle st sid now ev).1 now rest

/-- Run a list of steps collecting every emission in order. -/
def runAll (st : ServerState) (now : String) :
    List (SocketId × ClientEvent) → ServerState × List Emit
  | [] => (st, [])
  | (sid, ev) :: rest =>
      let r := handle st sid now ev
      let r2 := runAll r.1 now rest
      (r2.1, r.2 ++ r2.2)

/-- The empty server at startup. -/
def initState : ServerState := ⟨[], [], []⟩

/-- States the transport actually produces: registry keys are unique (JS
object), and every registered socket is connected and has joined the
Socket.IO room it is registered in. -/
def WF (st : ServerState) : Prop :=
  (st.activeUsers.map Prod.fst).Nodup ∧
    ∀ p ∈ st.activeUsers, p.1 ∈ st.connected ∧ (p.1, p.2.roomId) ∈ st.socketRooms

instance (st : ServerState) : Decidable (WF st) := by
  unfold WF; infer_instance

/-! ### Registry lemmas -/

theorem lookupUser_mem {l : List (SocketId × Session)} {c : SocketId} {s : Session}
    (h : lookupUser l c = some s) : (c, s) ∈ l := by
  induction l with
  | nil => simp [lookupUser] at h
  | cons p rest ih =>
      obtain ⟨k, v⟩ := p
      by_cases hk : k = c
      · subst hk
        simp [lookupUser] at h
        subst h
        exact List.mem_cons_self _ _
      · simp [lookupUser, hk] at h
        exact List.mem_cons_of_mem _ (ih h)

theorem lookupUser_eq_some_iff {l : List (SocketId × Session)}
    (hn : (l.map Prod.fst).Nodup) (c : SocketId) (s : Session) :
    lookupUser l c = some s ↔ (c, s) ∈ l := by
  constructor
  · exact lookupUser_mem
  · intro hmem
    induction l with
    | nil => simp at hmem
    | cons p rest ih =>
        obtain ⟨k, v⟩ := p
        simp only [List.map_cons, List.nodup_cons] at hn
        rcases List.mem_cons.mp hmem with h | h
        · obtain ⟨h1, h2⟩ := Prod.mk.injEq .. ▸ h
          simp [lookupUser, h1.symm, h2]
        · have hkc : k ≠ c := by
            intro hkc
            exact hn.1 (hkc ▸ List.mem_map.mpr ⟨(c, s), h, rfl⟩)
          simp [lookupUser, hkc]
          exact ih hn.2 h

theorem lookupUser_setUser_self (l : List (SocketId × Session)) (sid : SocketId)
    (s : Session) : lookupUser (setUser l sid s) sid = some s := by
  induction l with
  | nil => simp [setUser, lookupUser]
  | cons p rest ih =>
      obtain ⟨k, v⟩ := p
      by_cases hk : k = sid
      · simp [setUser, hk, lookupUser]
      · simp [setUser, hk, lookupUser, ih]

theorem lookupUser_setUser_ne (l : List (SocketId × Session)) {c sid : SocketId}
    (s : Session) (h : c ≠ sid) : lookupUser (setUser l sid s) c = lookupUser l c := by
  have hsc : sid ≠ c := Ne.symm h
  induction l with
  | nil => simp [setUser, lookupUser, hsc]
  | cons p rest ih =>
      obtain ⟨k, v⟩ := p
      by_cases hk : k = sid
      · subst hk
        simp [setUser, lookupUser, hsc]
      · simp [setUser, hk, lookupUser, ih]

theorem lookupUser_removeUser_self (l : List (SocketId × Session)) (sid : SocketId) :
    lookupUser (removeUser l sid) sid = none := by
  induction l with
  | nil => simp [removeUser, lookupUser]
  | cons p rest ih =>
      obtain ⟨k, v⟩ := p
      by_cases hk : k = sid
      · simpa [removeUser, hk] using ih
      · simpa [removeUser, lookupUser, hk] using ih

theorem lookupUser_removeUser_ne (l : List (SocketId × Session)) {c sid : SocketId}
    (h : c ≠ sid) : lookupUser (removeUser l sid) c = lookupUser l c := by
  have hsc : sid ≠ c := Ne.symm h
  induction l with
  | nil => simp [removeUser, lookupUser]
  | cons p rest ih =>
      obtain ⟨k, v⟩ := p
      by_cases hk : k = sid
      · subst hk
        simp [removeUser, lookupUser, hsc, ih]
      · simp [removeUser, lookupUser, hk, ih]

theorem removeUser_of_lookup_none {l : List (SocketId × Session)} {sid : SocketId}
    (h : lookupUser l sid = none) : removeUser l sid = l := by
  induction l with
  | nil => simp [removeUser]
  | cons p rest ih =>
      obtain ⟨k, v⟩ := p
      by_cases hk : k = sid
      · simp [lookupUser, hk] at h
      · simp [lookupUser, hk] at h
        simp [removeUser, hk, ih h]

theorem keys_setUser (l : List (SocketId × Session)) (sid : SocketId) (s : Session) :
    (setUser l sid s).map Prod.fst =
      if sid ∈ l.map Prod.fst then l.map Prod.fst else l.map Prod.fst ++ [sid] := by
  induction l with
  | nil => simp [setUser]
  | cons p rest ih =>
      obtain ⟨k, v⟩ := p
      by_cases hk : k = sid
      · subst hk
        simp [setUser]
      · have hks : ¬ sid = k := fun hh => hk hh.symm
        simp only [setUser, if_neg hk, List.map_cons, ih, List.mem_cons]
        by_cases hm : sid ∈ rest.map Prod.fst
        · simp [hm, hks]
        · simp [hm, hks]

theorem keys_nodup_setUser {l : List (SocketId × Session)} (sid : SocketId)
    (s : Session) (hn : (l.map Prod.fst).Nodup) :
    ((setUser l sid s).map Prod.fst).Nodup := by
  rw [keys_setUser]
  split
  · exact hn
  · next hm =>
      refine List.Nodup.append hn (List.nodup_singleton sid) ?hdisj
      intro a ha hb
      simp at hb
      subst hb
      exact hm ha

theorem removeUser_sublist (l : List (SocketId × Session)) (sid : SocketId) :
    (removeUser l sid).Sublist l := by
  induction l with
  | nil => simp [removeUser]
  | cons p rest ih =>
      obtain ⟨k, v⟩ := p
      by_cases hk : k = sid
      · simpa [removeUser, hk] using ih.cons (k, v)
      · simpa [removeUser, hk] using List.Sublist.cons₂ (k, v) ih

theorem keys_nodup_removeUser {l : List (SocketId × Session)} (sid : SocketId)
    (hn : (l.map Prod.fst).Nodup) : ((removeUser l sid).map Prod.fst).Nodup :=
  hn.sublist (List.Sublist.map _ (removeUser_sublist l sid))

/-! ### Membership characterizations of the derived views -/

theorem mem_roomUsersOf {users : List (SocketId × Session)} {R : String}
    {c : SocketId} {n : String} :
    (c, n) ∈ roomUsersOf users R ↔
      ∃ s, (c, s) ∈ users ∧ s.username = n ∧ s.roomId = R := by
  simp only [roomUsersOf, List.mem_map, List.mem_filter, decide_eq_true_eq]
  constructor
  · rintro ⟨⟨c2, s⟩, ⟨hmem, hR⟩, heq⟩
    obtain ⟨h1, h2⟩ := Prod.mk.injEq .. ▸ heq
    exact ⟨s, h1 ▸ hmem, h2, hR⟩
  · rintro ⟨s, hmem, hn, hR⟩
    exact ⟨(c, s), ⟨hmem, hR⟩, by simp [hn]⟩

theorem mem_roomUsersExcept {users : List (SocketId × Session)} {R : String}
    {sid c : SocketId} {n : String} :
    (c, n) ∈ roomUsersExcept users R sid ↔
      ∃ s, (c, s) ∈ users ∧ s.username = n ∧ s.roomId = R ∧ c ≠ sid := by
  simp only [roomUsersExcept, List.mem_map, List.mem_filter, decide_eq_true_eq]
  constructor
  · rintro ⟨⟨c2, s⟩, ⟨hmem, hR, hne⟩, heq⟩
    obtain ⟨h1, h2⟩ := Prod.mk.injEq .. ▸ heq
    exact ⟨s, h1 ▸ hmem, h2, hR, h1 ▸ hne⟩
  · rintro ⟨s, hmem, hn, hR, hne⟩
    exact ⟨(c, s), ⟨hmem, hR, hne⟩, by simp [hn]⟩

theorem mem_roomRecipients {st : ServerState} {R : String} {c : SocketId} :
    c ∈ roomRecipients st R ↔
      c ∈ st.connected ∧ (c = R ∨ (c, R) ∈ st.socketRooms) := by
  simp [roomRecipients, List.mem_filter]

theorem mem_socketToRecipients {st : ServerState} {R : String}
    {sender c : SocketId} :
    c ∈ socketToRecipients st R sender ↔
      c ∈ st.connected ∧ (c = R ∨ (c, R) ∈ st.socketRooms) ∧ c ≠ sender := by
  simp [socketToRecipients, mem_roomRecipients, List.mem_filter, and_assoc]

/-- A registered member of room R (under `WF`) receives every `io.to(R)`
broadcast. -/
theorem registered_mem_roomRecipients {st : ServerState} {c : SocketId}
    {s : Session} (hwf : WF st) (h : lookupUser st.activeUsers c = some s) :
    c ∈ roomRecipients st s.roomId := by
  obtain ⟨hconn, hroom⟩ := hwf.2 (c, s) (lookupUser_mem h)
  exact mem_roomRecipients.mpr ⟨hconn, Or.inr hroom⟩

/-- With unique registry keys, the join/disconnect membership list holds a
pair exactly when the registry maps that socket to that name in that room. -/
theorem mem_roomUsersOf_iff_lookup {users : List (SocketId × Session)}
    (hn : (users.map Prod.fst).Nodup) (R : String) (c : SocketId) (n : String) :
    (c, n) ∈ roomUsersOf users R ↔ lookupUser users c = some ⟨n, R⟩ := by
  rw [mem_roomUsersOf, lookupUser_eq_some_iff hn]
  constructor
  · rintro ⟨s, hmem, hn2, hR⟩
    obtain ⟨u, r⟩ := s
    cases hn2
    cases hR
    exact hmem
  · intro hmem
    exact ⟨⟨n, R⟩, hmem, rfl, rfl⟩

/-- Same characterization for the `get-room-users` reply list. -/
theorem mem_roomUsersExcept_iff_lookup {users : List (SocketId × Session)}
    (hn : (users.map Prod.fst).Nodup) (R : String) (sid c : SocketId) (n : String) :
    (c, n) ∈ roomUsersExcept users R sid ↔
      lookupUser users c = some ⟨n, R⟩ ∧ c ≠ sid := by
  rw [mem_roomUsersExcept, lookupUser_eq_some_iff hn]
  constructor
  · rintro ⟨s, hmem, hn2, hR, hne⟩
    obtain ⟨u, r⟩ := s
    cases hn2
    cases hR
    exact ⟨hmem, hne⟩
  · rintro ⟨hmem, hne⟩
    exact ⟨⟨n, R⟩, hmem, rfl, rfl, hne⟩

/-! ### Concrete states used to instantiate the theorems -/

/-- Two connected sockets A and B, nobody registered yet. -/
def stAB : ServerState := connect (connect initState "A") "B"

/-- alice (socket A) and bob (socket B), both registered in room R1. -/
def stR1 : ServerState :=
  runEvents stAB "T" [("A", .joinRoom "alice" "R1"), ("B", .joinRoom "bob" "R1")]

/-- alice (socket A) in room R1, bob (socket B) in room R2. -/
def stCross : ServerState :=
  runEvents stAB "T" [("A", .joinRoom "alice" "R1"), ("B", .joinRoom "bob" "R2")]

/-- Socket A re-joined room R2 after first joining R1; bob stayed in R1. -/
def stRejoin : ServerState :=
  runEvents stAB "T" [("A", .joinRoom "alice" "R1"), ("A", .joinRoom "alice" "R2"),
    ("B", .joinRoom "bob" "R1")]

/-- A single registered user alice in R1 on socket A. -/
def stA1 : ServerState :=
  runEvents (connect initState "A") "T" [("A", .joinRoom "alice" "R1")]

/-! ### Claim theorems -/

/-- C4: after a valid join the registry maps the socket to exactly the
submitted `{username, roomId}`; after disconnect the lookup is empty; and
removal of an unregistered connection is a no-op that leaves the registry
unchanged and emits nothing. -/
theorem c4_registry_ops (st : ServerState) (sid : SocketId) (now : String) :
    (∀ username roomId, username ≠ "" → roomId ≠ "" →
      lookupUser (handle st sid now (.joinRoom username roomId)).1.activeUsers sid =
        some ⟨username, roomId⟩) ∧
    lookupUser (handle st sid now .disconnect).1.activeUsers sid = none ∧
    (lookupUser st.activeUsers sid = none →
      (handle st sid now .disconnect).1.activeUsers = st.activeUsers ∧
      (handle st sid now .disconnect).2 = []) := by
  refine ⟨?join, ?gone, ?noop⟩
  case join =>
    intro username roomId hu hr
    have hcond : ¬(username = "" ∨ roomId = "") := by
      rintro (h | h)
      exacts [hu h, hr h]
    simp only [handle, if_neg hcond]
    exact lookupUser_setUser_self _ _ _
  case gone =>
    cases hl : lookupUser st.activeUsers sid with
    | none => simp [handle, hl]
    | some u => simpa [handle, hl] using lookupUser_removeUser_self st.activeUsers sid
  case noop =>
    intro hl
    simp [handle, hl]

/-- C4 witness: concrete join, disconnect, and idempotent removal on the
two-socket state. -/
theorem c4_registry_ops_witness :
    lookupUser (handle stAB "A" "T" (.joinRoom "alice" "R1")).1.activeUsers "A" =
      some ⟨"alice", "R1"⟩ ∧
    lookupUser (handle stR1 "A" "T" .disconnect).1.activeUsers "A" = none ∧
    (handle stAB "A" "T" .disconnect).1.activeUsers = stAB.activeUsers ∧
    (handle stAB "A" "T" .disconnect).2 = [] := by
  refine ⟨(c4_registry_ops stAB "A" "T").1 "alice" "R1" (by decide) (by decide),
    (c4_registry_ops stR1 "A" "T").2.1, (c4_registry_ops stAB "A" "T").2.2 (by decide)⟩

/-- C6: a `call-user` whose target is unregistered, or registered in a
different room than the caller, produces exactly one `call-error` emission
addressed to the initiator alone, no `incoming-call` anywhere, and leaves
the state unchanged. -/
theorem c6_call_target_not_found (st : ServerState) (sid target : SocketId)
    (now callType : String) (caller : Session)
    (hc : lookupUser st.activeUsers sid = some caller)
    (ht : ∀ t, lookupUser st.activeUsers target = some t → t.roomId ≠ caller.roomId) :
    handle st sid now (.callUser target callType) =
      (st, [⟨[sid], "call-error", .callError "User not found in room"⟩]) := by
  cases hl : lookupUser st.activeUsers target with
  | none => simp [handle, hc, hl]
  | some t => simp [handle, hc, hl, ht t hl]

/-- C6 witness: alice (room R1) calls bob who is registered in room R2. -/
theorem c6_call_target_not_found_witness :
    handle stCross "A" "T" (.callUser "B" "video") =
      (stCross, [⟨["A"], "call-error", .callError "User not found in room"⟩]) := by
  refine c6_call_target_not_found stCross "A" "B" "T" "video" ⟨"alice", "R1"⟩
    (by decide) ?ht
  intro t hteq
  rw [show lookupUser stCross.activeUsers "B" = some ⟨"bob", "R2"⟩ from by decide] at hteq
  cases hteq
  decide

/-- C10: every handler mutates at most the triggering connection's registry
entry — any other connection's lookup is unchanged by any event, and every
event other than join-room and disconnect leaves the registry untouched. -/
theorem c10_frame (st : ServerState) (sid : SocketId) (now : String)
    (ev : ClientEvent) (c : SocketId) (hne : c ≠ sid) :
    lookupUser (handle st sid now ev).1.activeUsers c = lookupUser st.activeUsers c ∧
    ((∀ a b, ev ≠ .joinRoom a b) → ev ≠ .disconnect →
      (handle st sid now ev).1.activeUsers = st.activeUsers) := by
  constructor
  · cases ev with
    | joinRoom username roomId =>
        by_cases hv : username = "" ∨ roomId = ""
        · simp [handle, hv]
        · simp only [handle, if_neg hv]
          exact lookupUser_setUser_ne _ _ hne
    | sendMessage m =>
        cases hl : lookupUser st.activeUsers sid <;> simp [handle, hl]
        split <;> simp
    | sendImage url =>
        cases hl : lookupUser st.activeUsers sid <;> simp [handle, hl]
        split <;> simp
    | getRoomUsers =>
        cases hl : lookupUser st.activeUsers sid <;> simp [handle, hl]
    | callUser t k =>
        cases hl : lookupUser st.activeUsers sid with
        | none => simp [handle, hl]
        | some caller =>
            cases hl2 : lookupUser st.activeUsers t <;> simp [handle, hl, hl2]
            split <;> simp
    | acceptCall c2 =>
        cases hl : lookupUser st.activeUsers sid <;>
          cases hl2 : lookupUser st.activeUsers c2 <;> simp [handle, hl, hl2]
    | rejectCall c2 =>
        cases hl : lookupUser st.activeUsers sid <;>
          cases hl2 : lookupUser st.activeUsers c2 <;> simp [handle, hl, hl2]
    | endCall t =>
        cases hl : lookupUser st.activeUsers sid <;> simp [handle, hl]
    | webrtcOffer t p => simp [handle]
    | webrtcAnswer t p => simp [handle]
    | webrtcIceCandidate t p => simp [handle]
    | disconnect =>
        cases hl : lookupUser st.activeUsers sid with
        | none => simp [handle, hl]
        | some u =>
            simp only [handle, hl]
            exact lookupUser_removeUser_ne _ hne
  · intro hjoin hdis
    cases ev with
    | joinRoom a b => exact absurd rfl (hjoin a b)
    | disconnect => exact absurd rfl hdis
    | sendMessage m =>
        cases hl : lookupUser st.activeUsers sid <;> simp [handle, hl]
        split <;> simp
    | sendImage url =>
        cases hl : lookupUser st.activeUsers sid <;> simp [handle, hl]
        split <;> simp
    | getRoomUsers =>
        cases hl : lookupUser st.activeUsers sid <;> simp [handle, hl]
    | callUser t k =>
        cases hl : lookupUser st.activeUsers sid with
        | none => simp [handle, hl]
        | some caller =>
            cases hl2 : lookupUser st.activeUsers t <;> simp [handle, hl, hl2]
            split <;> simp
    | acceptCall c2 =>
        cases hl : lookupUser st.activeUsers sid <;>
          cases hl2 : lookupUser st.activeUsers c2 <;> simp [handle, hl, hl2]
    | rejectCall c2 =>
        cases hl : lookupUser st.activeUsers sid <;>
          cases hl2 : lookupUser st.activeUsers c2 <;> simp [handle, hl, hl2]
    | endCall t =>
        cases hl : lookupUser st.activeUsers sid <;> simp [handle, hl]
    | webrtcOffer t p => simp [handle]
    | webrtcAnswer t p => simp [handle]
    | webrtcIceCandidate t p => simp [handle]

/-- C10 witness: bob's registry entry is untouched when alice sends a
message, and the registry itself is unchanged by that event. -/
theorem c10_frame_witness :
    lookupUser (handle stR1 "A" "T" (.sendMessage "x")).1.activeUsers "B" =
      lookupUser stR1.activeUsers "B" ∧
    ((∀ a b, ClientEvent.sendMessage "x" ≠ .joinRoom a b) →
      ClientEvent.sendMessage "x" ≠ .disconnect →
      (handle stR1 "A" "T" (.sendMessage "x")).1.activeUsers = stR1.activeUsers) :=
  c10_frame stR1 "A" "T" (.sendMessage "x") "B" (by decide)

/-- C1 counterexample: alice and bob join R1, alice calls bob, bob accepts,
then alice disconnects.  The complete emission trace shows that bob, the
surviving call party, receives only the `user-left` notice and the refreshed
`room-users-list` — no `call-ended` (or any other) termination notification
is ever emitted. -/
theorem c1_counterexample :
    (runAll stAB "T" [("A", .joinRoom "alice" "R1"), ("B", .joinRoom "bob" "R1"),
        ("A", .callUser "B" "video"), ("B", .acceptCall "A"), ("A", .disconnect)]).2 =
      [⟨["A"], "joined-room", .joinedRoom "alice" "R1"⟩,
       ⟨[], "user-joined", .userJoined "alice" "alice joined the room"⟩,
       ⟨["A"], "room-users-list", .roomUsersList [("A", "alice")]⟩,
       ⟨["B"], "joined-room", .joinedRoom "bob" "R1"⟩,
       ⟨["A"], "user-joined", .userJoined "bob" "bob joined the room"⟩,
       ⟨["A", "B"], "room-users-list", .roomUsersList [("A", "alice"), ("B", "bob")]⟩,
       ⟨["B"], "incoming-call", .incomingCall "A" "alice" "video"⟩,
       ⟨["A"], "call-accepted", .callAccepted "B" "bob"⟩,
       ⟨["B"], "user-left", .userLeft "alice" "alice left the room"⟩,
       ⟨["B"], "room-users-list", .roomUsersList [("B", "bob")]⟩] ∧
    ((runAll stAB "T" [("A", .joinRoom "alice" "R1"), ("B", .joinRoom "bob" "R1"),
        ("A", .callUser "B" "video"), ("B", .acceptCall "A"), ("A", .disconnect)]).2.all
      fun e => decide (e.event ≠ "call-ended")) = true := by
  constructor <;> decide

/-- C2 counterexample: alice (socket A) is registered in R1, yet the
`room-users-list` answered to her own `get-room-users` omits her and lists
only bob — the reply is not the full member set of R1. -/
theorem c2_counterexample :
    lookupUser stR1.activeUsers "A" = some ⟨"alice", "R1"⟩ ∧
    (handle stR1 "A" "T" .getRoomUsers).2 =
      [⟨["A"], "room-users-list", .roomUsersList [("B", "bob")]⟩] := by
  constructor <;> decide

/-- C3 counterexample: socket A joined R1, then re-joined R2 (its Session now
has roomId R2), but when bob broadcasts to R1 the message is still delivered
to A — the old Socket.IO membership is never left. -/
theorem c3_counterexample :
    lookupUser stRejoin.activeUsers "A" = some ⟨"alice", "R2"⟩ ∧
    (handle stRejoin "B" "T" (.sendMessage "hi")).2 =
      [⟨["A", "B"], "receive-message", .receiveMessage "bob" "hi" "T"⟩] := by
  constructor <;> decide

/-- C5 counterexample: registered alice sends the text with surrounding
whitespace; the broadcast carries the trimmed text, not the text she sent. -/
theorem c5_counterexample :
    (handle stA1 "A" "T" (.sendMessage " hi ")).2 =
      [⟨["A"], "receive-message", .receiveMessage "alice" "hi" "T"⟩] ∧
    " hi " ≠ "hi" := by
  constructor <;> decide

/-- C7 counterexample: socket B is connected but absent from the Registry,
yet an offer targeted at B is forwarded to and delivered at B — the relay
performs no registry-existence validation at all. -/
theorem c7_counterexample :
    lookupUser stAB.activeUsers "B" = none ∧
    (handle stAB "A" "T" (.webrtcOffer "B" "sdp")).2 =
      [⟨["B"], "webrtc-offer", .webrtcOffer "A" "sdp"⟩] := by
  constructor <;> decide

/-- C8 counterexample: socket A has no Session; its `get-room-users` is
dropped without any error being reported to it, and none of its three
negotiation relays is dropped — offer, answer and ICE candidate are all
forwarded to B. -/
theorem c8_counterexample :
    lookupUser stAB.activeUsers "A" = none ∧
    (handle stAB "A" "T" .getRoomUsers).2 = [] ∧
    (handle stAB "A" "T" (.webrtcOffer "B" "x")).2 =
      [⟨["B"], "webrtc-offer", .webrtcOffer "A" "x"⟩] ∧
    (handle stAB "A" "T" (.webrtcAnswer "B" "x")).2 =
      [⟨["B"], "webrtc-answer", .webrtcAnswer "A" "x"⟩] ∧
    (handle stAB "A" "T" (.webrtcIceCandidate "B" "x")).2 =
      [⟨["B"], "webrtc-ice-candidate", .webrtcIceCandidate "A" "x"⟩] := by
  refine ⟨by decide, by decide, by decide, by decide, by decide⟩

/-- C7 (amended): the three negotiation relays forward `{fromConnection,
payload}` with the payload verbatim, mutate nothing, perform no validation
at all — the outputs are identical whatever the Registry holds — and a
connected target distinct from the sender always receives the relay,
registered or not. -/
theorem c7_blind_relay (st : ServerState) (sid target : SocketId)
    (now payload : String) :
    handle st sid now (.webrtcOffer target payload) =
      (st, [⟨socketToRecipients st target sid, "webrtc-offer",
              .webrtcOffer sid payload⟩]) ∧
    handle st sid now (.webrtcAnswer target payload) =
      (st, [⟨socketToRecipients st target sid, "webrtc-answer",
              .webrtcAnswer sid payload⟩]) ∧
    handle st sid now (.webrtcIceCandidate target payload) =
      (st, [⟨socketToRecipients st target sid, "webrtc-ice-candidate",
              .webrtcIceCandidate sid payload⟩]) ∧
    (∀ other : List (SocketId × Session),
      (handle ⟨st.connected, st.socketRooms, other⟩ sid now
          (.webrtcOffer target payload)).2 =
        (handle st sid now (.webrtcOffer target payload)).2) ∧
    (target ∈ st.connected → target ≠ sid →
      target ∈ socketToRecipients st target sid) := by
  refine ⟨rfl, rfl, rfl, fun other => rfl, fun hconn hne => ?recv⟩
  exact mem_socketToRecipients.mpr ⟨hconn, Or.inl rfl, hne⟩

/-- C7 witness: the relay facts instantiated for sender A and connected,
unregistered target B. -/
theorem c7_blind_relay_witness :
    handle stAB "A" "T" (.webrtcOffer "B" "sdp") =
      (stAB, [⟨socketToRecipients stAB "B" "A", "webrtc-offer",
                .webrtcOffer "A" "sdp"⟩]) ∧
    handle stAB "A" "T" (.webrtcAnswer "B" "sdp") =
      (stAB, [⟨socketToRecipients stAB "B" "A", "webrtc-answer",
                .webrtcAnswer "A" "sdp"⟩]) ∧
    handle stAB "A" "T" (.webrtcIceCandidate "B" "sdp") =
      (stAB, [⟨socketToRecipients stAB "B" "A", "webrtc-ice-candidate",
                .webrtcIceCandidate "A" "sdp"⟩]) ∧
    (∀ other : List (SocketId × Session),
      (handle ⟨stAB.connected, stAB.socketRooms, other⟩ "A" "T"
          (.webrtcOffer "B" "sdp")).2 =
        (handle stAB "A" "T" (.webrtcOffer "B" "sdp")).2) ∧
    ("B" ∈ stAB.connected → "B" ≠ "A" → "B" ∈ socketToRecipients stAB "B" "A") := by
  have h := c7_blind_relay stAB "A" "B" "T" "sdp"
  exact ⟨h.1, h.2.1, h.2.2.1, h.2.2.2.1, h.2.2.2.2⟩

/-- C8 (amended): for a connection with no Session, only `send-message` and
`send-image` report a generic error to the sender; `get-room-users`,
`call-user`, `accept-call`, `reject-call` and `end-call` are silently dropped
with no emission at all; and the three negotiation relays are not dropped
but forwarded regardless.  No handler mutates any state. -/
theorem c8_unregistered_actions (st : ServerState) (sid : SocketId) (now : String)
    (h : lookupUser st.activeUsers sid = none) :
    (∀ m, handle st sid now (.sendMessage m) =
      (st, [⟨[sid], "error", .errorMsg "You must join a room first!"⟩])) ∧
    (∀ url, handle st sid now (.sendImage url) =
      (st, [⟨[sid], "error", .errorMsg "You must join a room first!"⟩])) ∧
    handle st sid now .getRoomUsers = (st, []) ∧
    (∀ t k, handle st sid now (.callUser t k) = (st, [])) ∧
    (∀ c, handle st sid now (.acceptCall c) = (st, [])) ∧
    (∀ c, handle st sid now (.rejectCall c) = (st, [])) ∧
    (∀ t, handle st sid now (.endCall t) = (st, [])) ∧
    (∀ t p, handle st sid now (.webrtcOffer t p) =
      (st, [⟨socketToRecipients st t sid, "webrtc-offer", .webrtcOffer sid p⟩])) ∧
    (∀ t p, handle st sid now (.webrtcAnswer t p) =
      (st, [⟨socketToRecipients st t sid, "webrtc-answer", .webrtcAnswer sid p⟩])) ∧
    (∀ t p, handle st sid now (.webrtcIceCandidate t p) =
      (st, [⟨socketToRecipients st t sid, "webrtc-ice-candidate",
              .webrtcIceCandidate sid p⟩])) := by
  refine ⟨fun m => by simp [handle, h], fun url => by simp [handle, h],
    by simp [handle, h], fun t k => by simp [handle, h],
    fun c => ?ac, fun c => ?rc, fun t => by simp [handle, h],
    fun t p => rfl, fun t p => rfl, fun t p => rfl⟩
  case ac => cases hl : lookupUser st.activeUsers c <;> simp [handle, h, hl]
  case rc => cases hl : lookupUser st.activeUsers c <;> simp [handle, h, hl]

/-- C8 witness: the unregistered-action behaviors instantiated on connected
but unregistered socket A, the three forwarded relays included. -/
theorem c8_unregistered_actions_witness :
    handle stAB "A" "T" (.sendMessage "hello") =
      (stAB, [⟨["A"], "error", .errorMsg "You must join a room first!"⟩]) ∧
    handle stAB "A" "T" .getRoomUsers = (stAB, []) ∧
    handle stAB "A" "T" (.callUser "B" "audio") = (stAB, []) ∧
    handle stAB "A" "T" (.acceptCall "B") = (stAB, []) ∧
    handle stAB "A" "T" (.endCall "B") = (stAB, []) ∧
    handle stAB "A" "T" (.webrtcOffer "B" "x") =
      (stAB, [⟨socketToRecipients stAB "B" "A", "webrtc-offer",
                .webrtcOffer "A" "x"⟩]) ∧
    handle stAB "A" "T" (.webrtcAnswer "B" "x") =
      (stAB, [⟨socketToRecipients stAB "B" "A", "webrtc-answer",
                .webrtcAnswer "A" "x"⟩]) ∧
    handle stAB "A" "T" (.webrtcIceCandidate "B" "x") =
      (stAB, [⟨socketToRecipients stAB "B" "A", "webrtc-ice-candidate",
                .webrtcIceCandidate "A" "x"⟩]) := by
  have h := c8_unregistered_actions stAB "A" "T" (by decide)
  exact ⟨h.1 "hello", h.2.2.1, h.2.2.2.1 "B" "audio", h.2.2.2.2.1 "B",
    h.2.2.2.2.2.2.1 "B", h.2.2.2.2.2.2.2.1 "B" "x",
    h.2.2.2.2.2.2.2.2.1 "B" "x", h.2.2.2.2.2.2.2.2.2 "B" "x"⟩

/-- C9: for any two registered connections u and c — no shared-room
requirement, no check that any call is RINGING, no call record anywhere —
`accept-call` from u naming c emits exactly one `call-accepted` carrying u's
id and display name, delivered to c, and `reject-call` likewise emits one
`call-rejected`; neither changes any state. -/
theorem c9_accept_reject_blind (st : ServerState) (u c : SocketId) (now : String)
    (su sc : Session) (hwf : WF st)
    (hu : lookupUser st.activeUsers u = some su)
    (hc : lookupUser st.activeUsers c = some sc) (hne : u ≠ c) :
    handle st u now (.acceptCall c) =
      (st, [⟨socketToRecipients st c u, "call-accepted",
              .callAccepted u su.username⟩]) ∧
    handle st u now (.rejectCall c) =
      (st, [⟨socketToRecipients st c u, "call-rejected",
              .callRejected u su.username⟩]) ∧
    c ∈ socketToRecipients st c u := by
  refine ⟨by simp [handle, hu, hc], by simp [handle, hu, hc], ?recv⟩
  obtain ⟨hconn, _⟩ := hwf.2 (c, sc) (lookupUser_mem hc)
  exact mem_socketToRecipients.mpr ⟨hconn, Or.inl rfl, Ne.symm hne⟩

/-- C9 witness: alice (room R1) accepts and rejects a never-initiated call
naming bob who is registered in a different room R2; bob receives both. -/
theorem c9_accept_reject_blind_witness :
    handle stCross "A" "T" (.acceptCall "B") =
      (stCross, [⟨socketToRecipients stCross "B" "A", "call-accepted",
                   .callAccepted "A" "alice"⟩]) ∧
    handle stCross "A" "T" (.rejectCall "B") =
      (stCross, [⟨socketToRecipients stCross "B" "A", "call-rejected",
                   .callRejected "A" "alice"⟩]) ∧
    "B" ∈ socketToRecipients stCross "B" "A" :=
  c9_accept_reject_blind stCross "A" "B" "T" ⟨"alice", "R1"⟩ ⟨"bob", "R2"⟩
    (by decide) (by decide) (by decide) (by decide)

/-- C5 (amended): `send-message` with no Session reports the generic error to
the sender only; a text that trims to empty is a silent no-op; otherwise it
broadcasts the sender's displayName, the whitespace-trimmed text and the
server timestamp to the sender's room, the sender itself and every
registered member of that room included. -/
theorem c5_sendText_behavior (st : ServerState) (sid : SocketId)
    (now message : String) (hwf : WF st) :
    (lookupUser st.activeUsers sid = none →
      handle st sid now (.sendMessage message) =
        (st, [⟨[sid], "error", .errorMsg "You must join a room first!"⟩])) ∧
    (∀ u, lookupUser st.activeUsers sid = some u → jsTrim message = "" →
      handle st sid now (.sendMessage message) = (st, [])) ∧
    (∀ u, lookupUser st.activeUsers sid = some u → jsTrim message ≠ "" →
      handle st sid now (.sendMessage message) =
        (st, [⟨roomRecipients st u.roomId, "receive-message",
                .receiveMessage u.username (jsTrim message) now⟩]) ∧
      sid ∈ roomRecipients st u.roomId ∧
      (∀ c s, lookupUser st.activeUsers c = some s → s.roomId = u.roomId →
        c ∈ roomRecipients st u.roomId)) := by
  refine ⟨fun h => by simp [handle, h], fun u hu hm => by simp [handle, hu, hm],
    fun u hu hm => ⟨by simp [handle, hu, hm], ?send, ?mems⟩⟩
  case send => exact registered_mem_roomRecipients hwf hu
  case mems =>
    intro c s hc hR
    exact hR ▸ registered_mem_roomRecipients hwf hc

/-- C5 witness: bob broadcasts a plain text in R1; the single emission goes
to the members of R1, bob included. -/
theorem c5_sendText_behavior_witness :
    handle stR1 "B" "T" (.sendMessage "hello") =
      (stR1, [⟨roomRecipients stR1 "R1", "receive-message",
                .receiveMessage "bob" "hello" "T"⟩]) ∧
    "B" ∈ roomRecipients stR1 "R1" ∧ "A" ∈ roomRecipients stR1 "R1" := by
  have h := (c5_sendText_behavior stR1 "B" "T" "hello" (by decide)).2.2
    ⟨"bob", "R1"⟩ (by decide) (by decide)
  exact ⟨h.1, h.2.1, h.2.2 "A" ⟨"alice", "R1"⟩ (by decide) rfl⟩

/-- C3 (amended): a registered sender's text is broadcast in one emission to
exactly the sockets whose transport-level memberships include the sender's
room: that covers every connection whose current Session is in that room,
excludes every connection that never joined it, but still includes a
connection that joined it earlier and has since re-joined a different room. -/
theorem c3_room_isolation (st : ServerState) (sid : SocketId)
    (now message : String) (u : Session) (hwf : WF st)
    (hu : lookupUser st.activeUsers sid = some u) (hm : jsTrim message ≠ "") :
    (handle st sid now (.sendMessage message)).2 =
      [⟨roomRecipients st u.roomId, "receive-message",
         .receiveMessage u.username (jsTrim message) now⟩] ∧
    (∀ c s, lookupUser st.activeUsers c = some s → s.roomId = u.roomId →
      c ∈ roomRecipients st u.roomId) ∧
    (∀ c, c ≠ u.roomId → (c, u.roomId) ∉ st.socketRooms →
      c ∉ roomRecipients st u.roomId) := by
  refine ⟨by simp [handle, hu, hm], ?mems, ?strangers⟩
  case mems =>
    intro c s hc hR
    exact hR ▸ registered_mem_roomRecipients hwf hc
  case strangers =>
    intro c h1 h2 hmem
    rcases mem_roomRecipients.mp hmem with ⟨-, h | h⟩
    exacts [h1 h, h2 h]

/-- C3 witness: bob broadcasts in R1 of the two-member room state; both
members receive, and a socket that never joined R1 is not a recipient. -/
theorem c3_room_isolation_witness :
    (handle stR1 "B" "T" (.sendMessage "hi")).2 =
      [⟨roomRecipients stR1 "R1", "receive-message",
         .receiveMessage "bob" "hi" "T"⟩] ∧
    "A" ∈ roomRecipients stR1 "R1" ∧
    "Z" ∉ roomRecipients stR1 "R1" := by
  have h := c3_room_isolation stR1 "B" "T" "hi" ⟨"bob", "R1"⟩
    (by decide) (by decide) (by decide)
  exact ⟨h.1, h.2.1 "A" ⟨"alice", "R1"⟩ (by decide) rfl,
    h.2.2 "Z" (by decide) (by decide)⟩

/-- C2 (amended): the `room-users-list` broadcast on join and on disconnect
holds a pair exactly when the registry, after the triggering mutation, maps
that socket to that name in that room; the reply to `get-room-users`,
however, equals that set minus the requesting socket itself. -/
theorem c2_membership_lists (st : ServerState) (sid : SocketId) (now : String)
    (hwf : WF st) :
    (∀ u, lookupUser st.activeUsers sid = some u →
      (handle st sid now .getRoomUsers).2 =
        [⟨[sid], "room-users-list",
           .roomUsersList (roomUsersExcept st.activeUsers u.roomId sid)⟩] ∧
      (∀ c n, (c, n) ∈ roomUsersExcept st.activeUsers u.roomId sid ↔
        (lookupUser st.activeUsers c = some ⟨n, u.roomId⟩ ∧ c ≠ sid))) ∧
    (∀ username roomId, username ≠ "" → roomId ≠ "" →
      ∃ e1 e2 rec,
        (handle st sid now (.joinRoom username roomId)).2 =
          [e1, e2, ⟨rec, "room-users-list",
            .roomUsersList (roomUsersOf
              (setUser st.activeUsers sid ⟨username, roomId⟩) roomId)⟩] ∧
        (∀ c n, (c, n) ∈ roomUsersOf
            (setUser st.activeUsers sid ⟨username, roomId⟩) roomId ↔
          lookupUser (handle st sid now (.joinRoom username roomId)).1.activeUsers c =
            some ⟨n, roomId⟩)) ∧
    (∀ u, lookupUser st.activeUsers sid = some u →
      ∃ e1 rec,
        (handle st sid now .disconnect).2 =
          [e1, ⟨rec, "room-users-list",
            .roomUsersList (roomUsersOf (removeUser st.activeUsers sid) u.roomId)⟩] ∧
        (∀ c n, (c, n) ∈ roomUsersOf (removeUser st.activeUsers sid) u.roomId ↔
          lookupUser (handle st sid now .disconnect).1.activeUsers c =
            some ⟨n, u.roomId⟩)) := by
  refine ⟨fun u hu => ⟨by simp [handle, hu], fun c n =>
      mem_roomUsersExcept_iff_lookup hwf.1 u.roomId sid c n⟩, ?join, ?leave⟩
  case join =>
    intro username roomId h1 h2
    have hcond : ¬(username = "" ∨ roomId = "") := by
      rintro (h | h)
      exacts [h1 h, h2 h]
    have hAU : (handle st sid now (.joinRoom username roomId)).1.activeUsers =
        setUser st.activeUsers sid ⟨username, roomId⟩ := by
      simp [handle, if_neg hcond]
    refine ⟨⟨[sid], "joined-room", .joinedRoom username roomId⟩,
      ⟨socketToRecipients ⟨st.connected, joinSock st.socketRooms sid roomId,
          setUser st.activeUsers sid ⟨username, roomId⟩⟩ roomId sid, "user-joined",
        .userJoined username (username ++ " joined the room")⟩,
      roomRecipients ⟨st.connected, joinSock st.socketRooms sid roomId,
          setUser st.activeUsers sid ⟨username, roomId⟩⟩ roomId,
      by simp [handle, if_neg hcond], fun c n => ?hiffJ⟩
    case hiffJ =>
      rw [hAU]
      exact mem_roomUsersOf_iff_lookup (keys_nodup_setUser sid _ hwf.1) roomId c n
  case leave =>
    intro u hu
    have hAU : (handle st sid now .disconnect).1.activeUsers =
        removeUser st.activeUsers sid := by
      simp [handle, hu]
    refine ⟨⟨socketToRecipients ⟨st.connected.filter (fun c => decide (c ≠ sid)),
          st.socketRooms.filter (fun p => decide (p.1 ≠ sid)), st.activeUsers⟩
          u.roomId sid, "user-left",
        .userLeft u.username (u.username ++ " left the room")⟩,
      roomRecipients ⟨st.connected.filter (fun c => decide (c ≠ sid)),
          st.socketRooms.filter (fun p => decide (p.1 ≠ sid)),
          removeUser st.activeUsers sid⟩ u.roomId,
      by simp [handle, hu], fun c n => ?hiffL⟩
    case hiffL =>
      rw [hAU]
      exact mem_roomUsersOf_iff_lookup (keys_nodup_removeUser sid hwf.1) u.roomId c n

/-- C2 witness: the three membership-list facts instantiated on the
two-member room state for socket A. -/
theorem c2_membership_lists_witness :
    ((handle stR1 "A" "T" .getRoomUsers).2 =
        [⟨["A"], "room-users-list",
           .roomUsersList (roomUsersExcept stR1.activeUsers "R1" "A")⟩] ∧
      (∀ c n, (c, n) ∈ roomUsersExcept stR1.activeUsers "R1" "A" ↔
        (lookupUser stR1.activeUsers c = some ⟨n, "R1"⟩ ∧ c ≠ "A"))) ∧
    (∃ e1 e2 rec,
      (handle stR1 "A" "T" (.joinRoom "alice" "R2")).2 =
        [e1, e2, ⟨rec, "room-users-list",
          .roomUsersList (roomUsersOf
            (setUser stR1.activeUsers "A" ⟨"alice", "R2"⟩) "R2")⟩] ∧
      (∀ c n, (c, n) ∈ roomUsersOf
          (setUser stR1.activeUsers "A" ⟨"alice", "R2"⟩) "R2" ↔
        lookupUser (handle stR1 "A" "T" (.joinRoom "alice" "R2")).1.activeUsers c =
          some ⟨n, "R2"⟩)) ∧
    (∃ e1 rec,
      (handle stR1 "A" "T" .disconnect).2 =
        [e1, ⟨rec, "room-users-list",
          .roomUsersList (roomUsersOf (removeUser stR1.activeUsers "A") "R1")⟩] ∧
      (∀ c n, (c, n) ∈ roomUsersOf (removeUser stR1.activeUsers "A") "R1" ↔
        lookupUser (handle stR1 "A" "T" .disconnect).1.activeUsers c =
          some ⟨n, "R1"⟩)) := by
  have h := c2_membership_lists stR1 "A" "T" (by decide)
  exact ⟨h.1 ⟨"alice", "R1"⟩ (by decide), h.2.1 "alice" "R2" (by decide) (by decide),
    h.2.2 ⟨"alice", "R1"⟩ (by decide)⟩

/-- C1 (amended): when a registered connection disconnects, its Session is
removed and exactly two emissions follow, the `user-left` leave notice and
then the refreshed `room-users-list` — no `call-ended` or other termination
notification exists, the server holding no call state.  Every surviving
registered member of the room (in particular the peer of any ongoing call,
calls being room-internal) receives both, and the refreshed list is exactly
the former room membership minus the disconnector. -/
theorem c1_disconnect_cleanup (st : ServerState) (sid : SocketId) (now : String)
    (u : Session) (hwf : WF st) (h : lookupUser st.activeUsers sid = some u) :
    lookupUser (handle st sid now .disconnect).1.activeUsers sid = none ∧
    (handle st sid now .disconnect).2.map Emit.event =
      ["user-left", "room-users-list"] ∧
    (∃ rec1 rec2,
      (handle st sid now .disconnect).2 =
        [⟨rec1, "user-left", .userLeft u.username (u.username ++ " left the room")⟩,
         ⟨rec2, "room-users-list",
           .roomUsersList (roomUsersOf (removeUser st.activeUsers sid) u.roomId)⟩] ∧
      (∀ c s, lookupUser st.activeUsers c = some s → c ≠ sid → s.roomId = u.roomId →
        c ∈ rec1 ∧ c ∈ rec2)) ∧
    (∀ c n, (c, n) ∈ roomUsersOf (removeUser st.activeUsers sid) u.roomId ↔
      (lookupUser st.activeUsers c = some ⟨n, u.roomId⟩ ∧ c ≠ sid)) := by
  refine ⟨?gone, by simp [handle, h],
    ⟨socketToRecipients ⟨st.connected.filter (fun c => decide (c ≠ sid)),
        st.socketRooms.filter (fun p => decide (p.1 ≠ sid)), st.activeUsers⟩
        u.roomId sid,
      roomRecipients ⟨st.connected.filter (fun c => decide (c ≠ sid)),
        st.socketRooms.filter (fun p => decide (p.1 ≠ sid)),
        removeUser st.activeUsers sid⟩ u.roomId,
      by simp [handle, h], ?survivors⟩, ?hlist⟩
  case gone =>
    simpa [handle, h] using lookupUser_removeUser_self st.activeUsers sid
  case survivors =>
    intro c s hc hcne hR
    obtain ⟨hconn, hroom⟩ := hwf.2 (c, s) (lookupUser_mem hc)
    have hconnD : c ∈ st.connected.filter (fun x => decide (x ≠ sid)) :=
      List.mem_filter.mpr ⟨hconn, by simp [hcne]⟩
    have hroomD : (c, u.roomId) ∈ st.socketRooms.filter (fun p => decide (p.1 ≠ sid)) :=
      List.mem_filter.mpr ⟨hR ▸ hroom, by simp [hcne]⟩
    constructor
    · exact mem_socketToRecipients.mpr ⟨hconnD, Or.inr hroomD, hcne⟩
    · exact mem_roomRecipients.mpr ⟨hconnD, Or.inr hroomD⟩
  case hlist =>
    intro c n
    rw [mem_roomUsersOf_iff_lookup (keys_nodup_removeUser sid hwf.1) u.roomId c n]
    by_cases hcs : c = sid
    · subst hcs
      simp [lookupUser_removeUser_self]
    · simp [lookupUser_removeUser_ne _ hcs, hcs]

/-- C1 witness: alice disconnects from the two-member room; bob survives,
receives both emissions in order, and the refreshed list is bob alone. -/
theorem c1_disconnect_cleanup_witness :
    lookupUser (handle stR1 "A" "T" .disconnect).1.activeUsers "A" = none ∧
    (handle stR1 "A" "T" .disconnect).2.map Emit.event =
      ["user-left", "room-users-list"] ∧
    (∃ rec1 rec2,
      (handle stR1 "A" "T" .disconnect).2 =
        [⟨rec1, "user-left", .userLeft "alice" ("alice" ++ " left the room")⟩,
         ⟨rec2, "room-users-list",
           .roomUsersList (roomUsersOf (removeUser stR1.activeUsers "A") "R1")⟩] ∧
      (∀ c s, lookupUser stR1.activeUsers c = some s → c ≠ "A" → s.roomId = "R1" →
        c ∈ rec1 ∧ c ∈ rec2)) ∧
    (∀ c n, (c, n) ∈ roomUsersOf (removeUser stR1.activeUsers "A") "R1" ↔
      (lookupUser stR1.activeUsers c = some ⟨n, "R1"⟩ ∧ c ≠ "A")) :=
  c1_disconnect_cleanup stR1 "A" "T" ⟨"alice", "R1"⟩ (by decide) (by decide)

end AkkuChat
